import Mathlib

/-!
Shallow embedding of the `cmdio` Go package (src/cmdio.go, src/darwin.go).

The Go code is a single-use process lifecycle controller (`CmdIo`) plus a
Darwin-specific descendant enumerator (`children`) and a process-interrupt
handler (`signalHandler`).  All mutations of the shared `Info` record happen
inside critical sections guarded by the controller's single mutex `lok`; each
such critical section is embedded here as one pure function on an explicit
state record.  Machine integers are modelled as `Int`/`Nat` (with `% 2^32`
where Go's `uint32` conversion truncates); Go `error` values become an
explicit inductive type; Go's buffered channels of capacity one become lists
of length at most one (a send is enabled only when the buffer has room, which
is exactly when the Go send does not block).
-/

namespace Cmdio

/-! ## Wait status decoding (Go `syscall.WaitStatus`, darwin/bsd semantics)

Go's darwin `WaitStatus` accessors used by `exitErr` (src/cmdio.go:256-265):
`Signal()` returns `w & 0x7F` unless that is `0` (exited) or `0x7F` (stopped),
in which case it returns `-1`; `ExitStatus()` returns `int(w >> 8)` when
`w & 0x7F == 0` and `-1` otherwise. -/

/-- Raw OS wait status word, as in Go's `syscall.WaitStatus` (a `uint32`). -/
abbrev WaitStatus := Nat

/-- `WaitStatus.Signal` on darwin: `w & 0x7F`, or `-1` when exited/stopped. -/
def wsSignal (w : WaitStatus) : Int :=
  if w % 128 = 127 ∨ w % 128 = 0 then -1 else ((w % 128 : Nat) : Int)

/-- `WaitStatus.Signaled` on darwin: `w&0x7F != 0x7F && w&0x7F != 0`. -/
def wsSignaled (w : WaitStatus) : Bool :=
  decide (w % 128 ≠ 127 ∧ w % 128 ≠ 0)

/-- `WaitStatus.ExitStatus` on darwin: `int(w >> 8)` if exited, else `-1`. -/
def wsExitStatus (w : WaitStatus) : Int :=
  if w % 128 ≠ 0 then -1 else ((w / 256 : Nat) : Int)

/-- Go `error` values that flow through the controller: a `*exec.ExitError`
wrapping a wait status, the fixed reuse error created in `Start`
(src/cmdio.go:116), or any other start/wait failure. -/
inductive GoError where
  | exitError (ws : WaitStatus)
  | reuseError
  | startError (msg : String)
deriving DecidableEq, Repr

/-- `exitErr` (src/cmdio.go:256-265): for an `*exec.ExitError`, the signal
number when positive, otherwise the exit status; `0` for every other error. -/
def exitErr : GoError → Int
  | .exitError ws => if wsSignal ws > 0 then wsSignal ws else wsExitStatus ws
  | .reuseError => 0
  | .startError _ => 0

/-! ## The `Info` record and controller state -/

/-- The `Info` record (src/cmdio.go:45-54).  Timestamps are `UnixNano`
integers, `runT` is a `time.Duration` in nanoseconds. -/
structure InfoR where
  error    : Option GoError
  runT     : Int
  pid      : Int
  exit     : Int
  startT   : Int
  endT     : Int
  finished : Bool
  signaled : Bool
deriving DecidableEq, Repr

/-- The `status` enum (src/cmdio.go:56-63). -/
inductive Status where
  | uninitialized
  | exited
  | running
  | signaled
deriving DecidableEq, Repr

/-- The mutable state of one `CmdIo` (src/cmdio.go:66-81), with the two
buffered channels of capacity one (`ech`, `sch`) as lists of length ≤ 1,
the `sync.Once` gate `ini` as a Bool, and the close flag of the unbuffered
`syn` channel.  `strT` is the `str` field: it is set by no function of the
package (only `New` zero-initialises it), which the embedding mirrors. -/
structure CmdSt where
  sta : Status
  inf : InfoR
  strT : Int
  iniDone : Bool
  ech : List InfoR
  sch : List Bool
  synClosed : Bool
deriving DecidableEq, Repr

/-- The `Info` literal built in `New` (src/cmdio.go:98): `Pid: 0, Exit: -1`,
all other fields zero-valued. -/
def newInfo : InfoR :=
  { error := none, runT := 0, pid := 0, exit := -1, startT := 0, endT := 0,
    finished := false, signaled := false }

/-- `New` (src/cmdio.go:84-104): fresh state, `sta = _uninitialized`, empty
channels, once-gate not yet fired, zero `str`. -/
def newCmdIo : CmdSt :=
  { sta := .uninitialized, inf := newInfo, strT := 0, iniDone := false,
    ech := [], sch := [], synClosed := false }

/-- The rejection record sent by a second `Start` (src/cmdio.go:115-124). -/
def reuseInfo : InfoR :=
  { error := some .reuseError, runT := 0, pid := 0, exit := 0, startT := 0,
    endT := 0, finished := true, signaled := false }

/-- Result of `Terminate`: either the early `return nil` or the
`syscall.Kill(pgid, SIGTERM)` call with its process-group argument. -/
inductive TermEffect where
  | noop
  | sigterm (pgid : Int)
deriving DecidableEq, Repr

/-- `Terminate` (src/cmdio.go:137-148): no-op when uninitialized or already
finished; otherwise move to `_signaled`, set the signaled flag and send
SIGTERM to the process group `-pid`. -/
def terminateOp (c : CmdSt) : CmdSt × TermEffect :=
  if c.sta = .uninitialized ∨ c.inf.finished then (c, .noop)
  else ({ c with sta := .signaled, inf := { c.inf with signaled := true } },
        .sigterm (-c.inf.pid))

/-- `Info` (src/cmdio.go:151-162): under the lock, when `_running` recompute
`RunT` as now minus the `str` field, when `_exited` set `Finished`; return
(a copy of) the updated record.  `now` is `time.Now()` in `UnixNano` minus
nothing — the subtraction `time.Now().Sub(c.str)` is `now - strT` in
nanoseconds. -/
def infoOp (now : Int) (c : CmdSt) : CmdSt × InfoR :=
  if c.sta = .running then
    let inf := { c.inf with runT := now - c.strT }
    ({ c with inf := inf }, inf)
  else if c.sta = .exited then
    let inf := { c.inf with finished := true }
    ({ c with inf := inf }, inf)
  else (c, c.inf)

/-- `init` (src/cmdio.go:225-232): record the PID and start timestamp and
move to `_running`.  Note it does not assign the `str` field. -/
def initOp (t : Int) (pid : Int) (c : CmdSt) : CmdSt :=
  { c with inf := { c.inf with pid := pid, startT := t }, sta := .running }

/-- `endState` (src/cmdio.go:242-254): record error, exit code and the two
timestamps; unless the state is `_signaled`, set `Finished` and move to
`_exited`. -/
def endStateOp (t now code : Int) (err : Option GoError) (c : CmdSt) : CmdSt :=
  let inf := { c.inf with error := err, exit := code, startT := t, endT := now }
  if c.sta ≠ .signaled then
    { c with inf := { inf with finished := true }, sta := .exited }
  else
    { c with inf := inf }

/-- The code computed by `complete` (src/cmdio.go:234-240): `0` when there is
no error, else `exitErr`. -/
def completeCode : Option GoError → Int
  | none => 0
  | some e => exitErr e

/-- `complete` (src/cmdio.go:234-240): decode the code and apply `endState`. -/
def completeOp (t now : Int) (err : Option GoError) (c : CmdSt) : CmdSt :=
  endStateOp t now (completeCode err) err c

/-- The rejected-reuse branch of `Start` (src/cmdio.go:114-125): when the
once-gate has already fired, `Start` sends `reuseInfo` on the capacity-one
channel `ech`.  `some` is the completed send; `none` means the channel
buffer is full, i.e. the caller of the second `Start` blocks. -/
def startSecond (c : CmdSt) : Option CmdSt :=
  if c.ech.length < 1 then some { c with ech := c.ech ++ [reuseInfo] }
  else none

/-! ## The concurrent execution model

One controller is driven by the caller (Start / Terminate / Info / channel
receives) interleaved with the single `runFn` task (src/cmdio.go:169-187).
`Phase` is the program counter of that task; the argument of `preInit` and
`runningWait` is the `now := time.Now()` value taken at src/cmdio.go:176,
which `runFn` later passes to `complete` as the start timestamp. -/

/-- Program counter of the `runFn` task spawned by the first `Start`. -/
inductive Phase where
  | notStarted
  | preInit (t : Int)
  | runningWait (t : Int)
  | completed
  | final
deriving DecidableEq, Repr

/-- A controller together with the program counter of its `runFn` task. -/
structure Sys where
  cs : CmdSt
  ph : Phase
deriving DecidableEq, Repr

/-- The state right after `New`. -/
def initialSys : Sys := { cs := newCmdIo, ph := .notStarted }

/-- One interleaved step of the controller's execution.  Channel sends
require room in the capacity-one buffer (a full buffer blocks the sender,
hence no step).  Each constructor is one atomic region of the Go code. -/
inductive Step : Sys → Sys → Prop where
  /-- First `Start` (src/cmdio.go:109-113): the once-gate fires and the
  `runFn` task is spawned; it computes `now := time.Now()` (the `t` here). -/
  | startFirst (s : Sys) (t : Int) :
      s.ph = .notStarted →
      Step s { cs := { s.cs with iniDone := true }, ph := .preInit t }
  /-- `cmd.Start()` fails (src/cmdio.go:177-181): `complete` then
  `sch <- false`. -/
  | startFail (s : Sys) (t now : Int) (msg : String) :
      s.ph = .preInit t →
      s.cs.sch.length < 1 →
      Step s { cs := { completeOp t now (some (.startError msg)) s.cs with
                       sch := s.cs.sch ++ [false] },
               ph := .completed }
  /-- `cmd.Start()` succeeds (src/cmdio.go:183-184): `c.init` then
  `sch <- true`. -/
  | startOk (s : Sys) (t pid : Int) :
      s.ph = .preInit t →
      s.cs.sch.length < 1 →
      Step s { cs := { initOp t pid s.cs with sch := s.cs.sch ++ [true] },
               ph := .runningWait t }
  /-- `cmd.Wait()` returns (src/cmdio.go:185-186): `complete`. -/
  | waitDone (s : Sys) (t now : Int) (err : Option GoError) :
      s.ph = .runningWait t →
      Step s { cs := completeOp t now err s.cs, ph := .completed }
  /-- The deferred epilogue (src/cmdio.go:170-173): `ech <- c.Info()` then
  `close(c.syn)`. -/
  | deferEnd (s : Sys) (now : Int) :
      s.ph = .completed →
      s.cs.ech.length < 1 →
      Step s { cs := { (infoOp now s.cs).1 with
                       ech := s.cs.ech ++ [(infoOp now s.cs).2],
                       synClosed := true },
               ph := .final }
  /-- A caller invokes `Terminate` (any time). -/
  | term (s : Sys) :
      Step s { s with cs := (terminateOp s.cs).1 }
  /-- A caller invokes `Info` (any time). -/
  | info (s : Sys) (now : Int) :
      Step s { s with cs := (infoOp now s.cs).1 }
  /-- A caller invokes `Start` again after the gate fired
  (src/cmdio.go:114-125); the step exists only when the send completes. -/
  | startAgain (s : Sys) (c' : CmdSt) :
      s.cs.iniDone = true →
      startSecond s.cs = some c' →
      Step s { s with cs := c' }
  /-- A caller receives from the result channel. -/
  | recvEch (s : Sys) (i : InfoR) (rest : List InfoR) :
      s.cs.ech = i :: rest →
      Step s { s with cs := { s.cs with ech := rest } }
  /-- A caller receives from the launch-accepted channel. -/
  | recvSch (s : Sys) (b : Bool) (rest : List Bool) :
      s.cs.sch = b :: rest →
      Step s { s with cs := { s.cs with sch := rest } }

/-- Reachable states of one controller, from `New`. -/
def Reach (s : Sys) : Prop := Relation.ReflTransGen Step initialSys s

/-- The inductive invariant: before `init` runs the state is still
`_uninitialized`; the signaled flag is only ever set together with the
`_signaled` state; and the finished and signaled flags never hold
together. -/
def StInv (s : Sys) : Prop :=
  ((s.ph = .notStarted ∨ ∃ t, s.ph = .preInit t) → s.cs.sta = .uninitialized)
  ∧ (s.cs.inf.signaled = true → s.cs.sta = .signaled)
  ∧ (s.cs.inf.finished = true → s.cs.inf.signaled = false)

/-! ## Concrete executions used below -/

/-- After the first `Start` has fired the once-gate (task time `t = 0`). -/
def sysA : Sys := { cs := { newCmdIo with iniDone := true }, ph := .preInit 0 }

/-- After `cmd.Start()` succeeded with PID 42 and `sch <- true`. -/
def sysB : Sys :=
  { cs := { initOp 0 42 sysA.cs with sch := sysA.cs.sch ++ [true] },
    ph := .runningWait 0 }

/-- After the process exited normally (no wait error) at time 5. -/
def sysC : Sys := { cs := completeOp 0 5 none sysB.cs, ph := .completed }

/-- After the deferred epilogue delivered the final result at time 7:
the one-slot result channel now holds the first run's record. -/
def sysD : Sys :=
  { cs := { (infoOp 7 sysC.cs).1 with
            ech := sysC.cs.ech ++ [(infoOp 7 sysC.cs).2],
            synClosed := true },
    ph := .final }

/-- `sysB` after a caller invoked `Terminate` on the running process. -/
def sysE : Sys := { sysB with cs := (terminateOp sysB.cs).1 }

/-! ## Process-wide handler installation (src/cmdio.go:109-113, src/darwin.go:121-126)

`signalHandler` is spawned inside `c.ini.Do`, and `ini` is a `sync.Once`
allocated per controller by `New` (src/cmdio.go:97) — not a process-wide
gate.  The model keeps, per process, the once-gate of every controller and
the number of `go signalHandler()` launches performed so far. -/

/-- One controlling process: the once-gate state of each of its controllers
and how many times the interrupt handler has been installed. -/
structure World where
  ctrls : List Bool
  installs : Nat
deriving DecidableEq, Repr

/-- A process with `n` controllers fresh from `New`, none started yet. -/
def freshWorld (n : Nat) : World :=
  { ctrls := List.replicate n false, installs := 0 }

/-- `Start` on controller `i`: if its once-gate has not fired, the gate fires
and `go signalHandler()` runs (one more installation); otherwise nothing is
installed. -/
def startCtrl (w : World) (i : Nat) : World :=
  if w.ctrls[i]? = some false then
    { ctrls := w.ctrls.set i true, installs := w.installs + 1 }
  else w

/-! ## Event traces of `runFn` and `Start` (src/cmdio.go:107-187) -/

/-- Observable events of a controller's execution. -/
inductive Ev where
  | stateInit
  | schSend (b : Bool)
  | osWait
  | stateComplete
  | echSend
  | synClose
deriving DecidableEq, Repr

/-- Event order of the `runFn` task (src/cmdio.go:169-187): on a successful
`cmd.Start()` it runs `init`, `sch <- true`, `Wait`, `complete`; on a failed
one it runs `complete`, `sch <- false`; in both cases the deferred block then
runs `ech <- c.Info()` followed by `close(c.syn)`. -/
def runFnEvents (startOk : Bool) : List Ev :=
  (if startOk then [Ev.stateInit, Ev.schSend true, Ev.osWait, Ev.stateComplete]
   else [Ev.stateComplete, Ev.schSend false])
  ++ [Ev.echSend, Ev.synClose]

/-- Events performed by a `Start` call itself (src/cmdio.go:107-127): a call
that lost the once-gate race only sends the reuse record on the result
channel; the winning call performs no channel operation itself (the spawned
`runFn` task does). -/
def startCallEvents (alreadyStarted : Bool) : List Ev :=
  if alreadyStarted then [Ev.echSend] else []

/-! ## Descendant enumerator (src/darwin.go:83-109)

`children` reads the darwin process table as a raw byte buffer of
648-byte `kinfo_proc` records and decodes `Pid` (byte offset 40) and `PPid`
(byte offset 560), both little-endian `int32`. -/

/-- `kinfoStructSize` (src/darwin.go:36). -/
def kinfoStructSize : Nat := 648

/-- The two fields of `kinfoProc` that `children` uses (src/darwin.go:39-47). -/
structure KinfoProc where
  pid : Int
  ppid : Int
deriving DecidableEq, Repr

/-- Little-endian `int32` at byte offset `off`, two's complement, as
`binary.Read` with `binary.LittleEndian` decodes the field. -/
def le32At (bs : List Nat) (off : Nat) : Int :=
  let u := bs.getD off 0 + 256 * bs.getD (off + 1) 0
      + 65536 * bs.getD (off + 2) 0 + 16777216 * bs.getD (off + 3) 0
  if u < 2147483648 then (u : Int) else (u : Int) - 4294967296

/-- Decode one 648-byte `kinfo_proc` record (src/darwin.go:39-47):
`Pid` after a 40-byte pad, `PPid` at offset 40+4+199+16+301 = 560. -/
def decodeKinfo (chunk : List Nat) : KinfoProc :=
  { pid := le32At chunk 40, ppid := le32At chunk 560 }

/-- The parsing loop of `children` (src/darwin.go:91-100):
`for i := kinfoStructSize; i < buf.Len(); i += kinfoStructSize` decodes the
chunk `buf[k:i]` and then sets `k = i`.  The extra fuel argument
(`bs.length` at the top-level call) only bounds the recursion; it is never
exhausted before the loop condition `i < bs.length` fails, because `i` grows
by 648 at every iteration. -/
def parseGo (bs : List Nat) : Nat → Nat → Nat → List KinfoProc
  | _, _, 0 => []
  | k, i, fuel + 1 =>
      if i < bs.length then
        decodeKinfo ((bs.drop k).take (i - k)) :: parseGo bs i (i + kinfoStructSize) fuel
      else []

/-- All records the loop of `children` decodes from the buffer. -/
def parseProcs (bs : List Nat) : List KinfoProc :=
  parseGo bs 0 kinfoStructSize bs.length

/-- `children` (src/darwin.go:83-109), over the outcome of `darwinSyscall`
(an errno or the raw table buffer): propagate a query error, otherwise keep
the pids of the decoded records whose `PPid` equals the argument. -/
def children (ppid : Int) (query : Except Nat (List Nat)) : Except Nat (List Int) :=
  match query with
  | .error e => .error e
  | .ok bs =>
      .ok (((parseProcs bs).filter (fun p => ppid == p.ppid)).map (fun p => p.pid))

/-- Ground-truth serialisation of one process-table record: zero padding
with the `Pid` and `PPid` fields little-endian at their offsets. -/
def encodeKinfo (pid ppid : Nat) : List Nat :=
  List.replicate 40 0
    ++ [pid % 256, pid / 256 % 256, pid / 65536 % 256, pid / 16777216 % 256]
    ++ List.replicate 516 0
    ++ [ppid % 256, ppid / 256 % 256, ppid / 65536 % 256, ppid / 16777216 % 256]
    ++ List.replicate 84 0

/-- A whole process table laid out record after record. -/
def encodeTable (tbl : List (Nat × Nat)) : List Nat :=
  (tbl.map (fun r => encodeKinfo r.1 r.2)).flatten

/-! ## Environment wiring of `newCmd` (src/cmdio.go:216-220) -/

/-- Go slice length: a nil slice (configuration supplied no environment
list) and an explicitly supplied empty list both have length 0. -/
def sliceLen : Option (List String) → Nat
  | none => 0
  | some l => l.length

/-- Environment assignment in `newCmd` (src/cmdio.go:217-220):
`cmd.Env = os.Environ()`, overwritten by `c.env` when `len(c.env) > 0`. -/
def cmdEnv (cfgEnv : Option (List String)) (osEnviron : List String) : List String :=
  if 0 < sliceLen cfgEnv then cfgEnv.getD osEnviron else osEnviron

/-! ## Credential construction of `newCmd` (src/cmdio.go:189-197)

`uid, _ := strconv.Atoi(c.usr.Uid)` drops the parse error, so a
syntactically invalid id string contributes `Atoi`'s zero value. -/

/-- Decimal digit test used by `strconv` parsing. -/
def isDigit (c : Char) : Bool := decide ('0' ≤ c ∧ c ≤ '9')

/-- The digit-accumulation loop of `strconv.Atoi`/`ParseUint`:
`n = n*10 + digit`; the first non-digit aborts with a syntax error
(`none`). -/
def digitsGo : List Char → Nat → Option Nat
  | [], n => some n
  | ch :: cs, n =>
      if isDigit ch then digitsGo cs (n * 10 + (ch.toNat - '0'.toNat))
      else none

/-- `strconv.Atoi` value semantics: `0` on a syntax error (empty string,
sign with no digits, any non-digit); otherwise the signed decimal value,
clamped to the `int64` range as `ParseInt` clamps on range errors. -/
def atoi (s : List Char) : Int :=
  match s with
  | [] => 0
  | c0 :: rest =>
      match digitsGo (if c0 = '-' ∨ c0 = '+' then rest else c0 :: rest) 0 with
      | none => 0
      | some n =>
          max (-(2 ^ 63)) (min (2 ^ 63 - 1)
            (if c0 = '-' then -(n : Int) else (n : Int)))

/-- Go's `uint32(i)` conversion: truncation modulo `2^32`. -/
def toUInt32c (v : Int) : Nat := (v % 4294967296).toNat

/-- `syscall.Credential` as filled in by `newCmd` (src/cmdio.go:193-197). -/
structure Credential where
  uid : Nat
  gid : Nat
  noSetGroups : Bool
deriving DecidableEq, Repr

/-- The `user.User` fields `newCmd` reads (id strings). -/
structure GoUser where
  uid : List Char
  gid : List Char
deriving DecidableEq, Repr

/-- The credential built by `newCmd` (src/cmdio.go:190-197). -/
def newCmdCred (usr : GoUser) : Credential :=
  { uid := toUInt32c (atoi usr.uid), gid := toUInt32c (atoi usr.gid),
    noSetGroups := true }

/-- Spec-side syntactic validity of a decimal integer string: an optional
sign followed by a nonempty run of decimal digits. -/
def validDecimal (s : List Char) : Bool :=
  match s with
  | [] => false
  | c0 :: rest =>
      decide ((if c0 = '-' ∨ c0 = '+' then rest else c0 :: rest) ≠ []) &&
      (if c0 = '-' ∨ c0 = '+' then rest else c0 :: rest).all isDigit

lemma stInv_initial : StInv initialSys :=
  ⟨fun _ => rfl, fun h => Bool.noConfusion h, fun _ => rfl⟩

lemma stInv_terminate (c : CmdSt)
    (h2 : c.inf.signaled = true → c.sta = .signaled)
    (h3 : c.inf.finished = true → c.inf.signaled = false) :
    ((terminateOp c).1.inf.signaled = true → (terminateOp c).1.sta = .signaled)
    ∧ ((terminateOp c).1.inf.finished = true →
       (terminateOp c).1.inf.signaled = false) := by
  unfold terminateOp
  split
  next h => exact ⟨h2, h3⟩
  next h =>
    push_neg at h
    exact ⟨fun _ => rfl, fun hfin => absurd hfin h.2⟩

lemma stInv_info (now : Int) (c : CmdSt)
    (h2 : c.inf.signaled = true → c.sta = .signaled)
    (h3 : c.inf.finished = true → c.inf.signaled = false) :
    (infoOp now c).1.sta = c.sta ∧
    ((infoOp now c).1.inf.signaled = true → (infoOp now c).1.sta = .signaled)
    ∧ ((infoOp now c).1.inf.finished = true →
       (infoOp now c).1.inf.signaled = false) := by
  unfold infoOp
  split
  next h => exact ⟨rfl, fun hx => h2 hx, fun hx => h3 hx⟩
  next h =>
    split
    next h' =>
      refine ⟨rfl, fun hx => h2 hx, fun _ => ?_⟩
      cases hxs : c.inf.signaled
      · rfl
      · exact absurd ((h2 hxs).symm.trans h') (by decide)
    next h' => exact ⟨rfl, h2, h3⟩

lemma stInv_endState (t now code : Int) (err : Option GoError) (c : CmdSt)
    (h2 : c.inf.signaled = true → c.sta = .signaled)
    (h3 : c.inf.finished = true → c.inf.signaled = false) :
    ((endStateOp t now code err c).inf.signaled = true →
      (endStateOp t now code err c).sta = .signaled)
    ∧ ((endStateOp t now code err c).inf.finished = true →
       (endStateOp t now code err c).inf.signaled = false) := by
  unfold endStateOp
  split
  next h =>
    have hsig : c.inf.signaled = false := by
      cases hx : c.inf.signaled
      · rfl
      · exact absurd (h2 hx) h
    constructor
    · intro hcon
      have hc : c.inf.signaled = true := hcon
      rw [hsig] at hc
      exact absurd hc (by decide)
    · intro _
      exact hsig
  next h =>
    exact ⟨fun _ => not_not.mp h, h3⟩

lemma stInv_step (s s' : Sys) (hstep : Step s s') (hinv : StInv s) : StInv s' := by
  obtain ⟨h1, h2, h3⟩ := hinv
  cases hstep with
  | startFirst t hph =>
      have hu : s.cs.sta = .uninitialized := h1 (Or.inl hph)
      exact ⟨fun _ => hu, h2, h3⟩
  | startFail t now msg hph hroom =>
      have heq := stInv_endState t now
        (completeCode (some (.startError msg))) (some (.startError msg)) s.cs h2 h3
      refine ⟨?_, heq.1, heq.2⟩
      intro hph'
      rcases hph' with h | ⟨u, h⟩ <;> exact Phase.noConfusion h
  | startOk t pid hph hroom =>
      have hu : s.cs.sta = .uninitialized := h1 (Or.inr ⟨t, hph⟩)
      have hsig : s.cs.inf.signaled = false := by
        cases hx : s.cs.inf.signaled
        · rfl
        · rw [h2 hx] at hu; exact Status.noConfusion hu
      refine ⟨?_, ?_, ?_⟩
      · intro hph'
        rcases hph' with h | ⟨u, h⟩ <;> exact Phase.noConfusion h
      · intro hcon
        have hc : s.cs.inf.signaled = true := hcon
        rw [hsig] at hc
        exact absurd hc (by decide)
      · intro _
        exact hsig
  | waitDone t now err hph =>
      have heq := stInv_endState t now (completeCode err) err s.cs h2 h3
      refine ⟨?_, heq.1, heq.2⟩
      intro hph'
      rcases hph' with h | ⟨u, h⟩ <;> exact Phase.noConfusion h
  | deferEnd now hph hroom =>
      have heq := stInv_info now s.cs h2 h3
      refine ⟨?_, heq.2.1, heq.2.2⟩
      intro hph'
      rcases hph' with h | ⟨u, h⟩ <;> exact Phase.noConfusion h
  | term =>
      have hterm := stInv_terminate s.cs h2 h3
      refine ⟨?_, hterm.1, hterm.2⟩
      intro hph'
      have hsta := h1 hph'
      show (terminateOp s.cs).1.sta = .uninitialized
      unfold terminateOp
      rw [if_pos (Or.inl hsta)]
      exact hsta
  | info now =>
      have heq := stInv_info now s.cs h2 h3
      refine ⟨?_, heq.2.1, heq.2.2⟩
      intro hph'
      show (infoOp now s.cs).1.sta = .uninitialized
      rw [heq.1]
      exact h1 hph'
  | startAgain c' hini hsend =>
      unfold startSecond at hsend
      split at hsend
      next hroom =>
        injection hsend with hc
        subst hc
        exact ⟨fun hph' => h1 hph', h2, h3⟩
      next hfull => exact Option.noConfusion hsend
  | recvEch i rest hech =>
      exact ⟨fun hph' => h1 hph', h2, h3⟩
  | recvSch b rest hsch =>
      exact ⟨fun hph' => h1 hph', h2, h3⟩

lemma stInv_reach (s : Sys) (h : Reach s) : StInv s := by
  induction h with
  | refl => exact stInv_initial
  | tail _ hstep ih => exact stInv_step _ _ hstep ih

lemma reach_sysA : Reach sysA :=
  Relation.ReflTransGen.single (Step.startFirst initialSys 0 rfl)

lemma reach_sysB : Reach sysB :=
  reach_sysA.tail (Step.startOk sysA 0 42 rfl (by decide))

lemma reach_sysC : Reach sysC :=
  reach_sysB.tail (Step.waitDone sysB 0 5 none rfl)

lemma reach_sysD : Reach sysD :=
  reach_sysC.tail (Step.deferEnd sysC 7 rfl (by decide))

lemma reach_sysE : Reach sysE :=
  reach_sysB.tail (Step.term sysB)

/-- C2: on every reachable state of a controller — under any interleaving of
`Start`, `Terminate`, `Info`, channel receives and the wait task's
bookkeeping — the `Info` record never has `Finished` and `Signaled` both
true: `Terminate` refuses to set `Signaled` once `Finished` holds, and
`endState` skips setting `Finished` once the state is `_signaled`. -/
theorem finished_signaled_exclusive (s : Sys) (h : Reach s) :
    ¬(s.cs.inf.finished = true ∧ s.cs.inf.signaled = true) := by
  obtain ⟨_, _, h3⟩ := stInv_reach s h
  intro hcon
  have hfalse := h3 hcon.1
  rw [hcon.2] at hfalse
  exact Bool.noConfusion hfalse

/-- Witness for C2 at a concrete reachable state: a controller whose running
process was terminated. -/
theorem finished_signaled_exclusive_witness :
    ¬(sysE.cs.inf.finished = true ∧ sysE.cs.inf.signaled = true) :=
  finished_signaled_exclusive sysE reach_sysE

/-- C1, counterexample to "a second `Start` never blocks": `sysD` is a
reachable state — the first run has finished and its result record occupies
the one-slot result channel — in which the rejected `Start`'s send of the
reuse record does not complete (`startSecond` returns `none`), i.e. the
second caller blocks. -/
theorem start_second_blocks_counterexample :
    Reach sysD ∧ sysD.cs.iniDone = true ∧ startSecond sysD.cs = none :=
  ⟨reach_sysD, by decide, by decide⟩

/-- C1 (amended): whenever the one-slot result channel is free, a subsequent
`Start` completes without blocking and places on the result channel a record
with the non-nil "already executed" error, `Finished = true` and
`Signaled = false`; it does not touch the launch-accepted channel, the
controller's own `Info` record, its state, or the `Join` signal. -/
theorem start_second_delivers_when_slot_free (c : CmdSt) (h : c.ech = []) :
    startSecond c = some { c with ech := [reuseInfo] } ∧
    reuseInfo.error = some .reuseError ∧
    reuseInfo.finished = true ∧
    reuseInfo.signaled = false ∧
    ({ c with ech := [reuseInfo] } : CmdSt).sch = c.sch ∧
    ({ c with ech := [reuseInfo] } : CmdSt).inf = c.inf ∧
    ({ c with ech := [reuseInfo] } : CmdSt).sta = c.sta ∧
    ({ c with ech := [reuseInfo] } : CmdSt).synClosed = c.synClosed := by
  refine ⟨?_, rfl, rfl, rfl, rfl, rfl, rfl, rfl⟩
  unfold startSecond
  rw [h]
  rfl

/-- Witness for C1's amended theorem: a fresh controller whose once-gate has
fired and whose result slot is empty. -/
theorem start_second_delivers_witness :
    startSecond { newCmdIo with iniDone := true }
        = some { { newCmdIo with iniDone := true } with ech := [reuseInfo] } ∧
    reuseInfo.error = some .reuseError ∧
    reuseInfo.finished = true ∧
    reuseInfo.signaled = false ∧
    ({ { newCmdIo with iniDone := true } with ech := [reuseInfo] } : CmdSt).sch
        = ({ newCmdIo with iniDone := true } : CmdSt).sch ∧
    ({ { newCmdIo with iniDone := true } with ech := [reuseInfo] } : CmdSt).inf
        = ({ newCmdIo with iniDone := true } : CmdSt).inf ∧
    ({ { newCmdIo with iniDone := true } with ech := [reuseInfo] } : CmdSt).sta
        = ({ newCmdIo with iniDone := true } : CmdSt).sta ∧
    ({ { newCmdIo with iniDone := true } with ech := [reuseInfo] } : CmdSt).synClosed
        = ({ newCmdIo with iniDone := true } : CmdSt).synClosed :=
  start_second_delivers_when_slot_free { newCmdIo with iniDone := true } rfl

/-- C3: `Terminate` returns nil and changes nothing when the controller is
uninitialized or the record is already finished; otherwise it moves the
state to `_signaled`, sets the `Signaled` flag and sends SIGTERM to the
process group `-pid`; the final result record produced by the wait task's
bookkeeping (whose wait error reports death by SIGTERM, status word 15)
then has a non-nil error, `Signaled = true`, `Finished = false` and
`Exit = 15`. -/
theorem terminate_semantics (c : CmdSt) (t now : Int) :
    ((c.sta = .uninitialized ∨ c.inf.finished = true) → terminateOp c = (c, .noop)) ∧
    (c.sta ≠ .uninitialized → c.inf.finished = false →
      (terminateOp c).2 = .sigterm (-c.inf.pid) ∧
      (terminateOp c).1.sta = .signaled ∧
      (terminateOp c).1.inf.signaled = true ∧
      ((completeOp t now (some (.exitError 15)) (terminateOp c).1).inf.error
          = some (.exitError 15) ∧
       (completeOp t now (some (.exitError 15)) (terminateOp c).1).inf.signaled = true ∧
       (completeOp t now (some (.exitError 15)) (terminateOp c).1).inf.finished = false ∧
       (completeOp t now (some (.exitError 15)) (terminateOp c).1).inf.exit = 15)) := by
  constructor
  · intro h
    unfold terminateOp
    rw [if_pos h]
  · intro h1 h2
    have hcond : ¬(c.sta = .uninitialized ∨ c.inf.finished = true) := by
      rintro (h | h)
      · exact h1 h
      · rw [h2] at h
        exact Bool.noConfusion h
    have hcode : completeCode (some (GoError.exitError 15)) = 15 := by decide
    unfold terminateOp
    rw [if_neg hcond]
    refine ⟨rfl, rfl, rfl, ?_⟩
    unfold completeOp
    rw [hcode]
    unfold endStateOp
    rw [if_neg (fun hne => hne rfl)]
    exact ⟨rfl, rfl, h2, rfl⟩

/-- Witness for C3 at concrete states: a fresh (uninitialized) controller
for the no-op half, and the running controller `sysB.cs` (PID 42) for the
termination half. -/
theorem terminate_semantics_witness :
    terminateOp newCmdIo = (newCmdIo, .noop) ∧
    ((terminateOp sysB.cs).2 = .sigterm (-sysB.cs.inf.pid) ∧
     (terminateOp sysB.cs).1.sta = .signaled ∧
     (terminateOp sysB.cs).1.inf.signaled = true ∧
     ((completeOp 0 5 (some (.exitError 15)) (terminateOp sysB.cs).1).inf.error
         = some (.exitError 15) ∧
      (completeOp 0 5 (some (.exitError 15)) (terminateOp sysB.cs).1).inf.signaled = true ∧
      (completeOp 0 5 (some (.exitError 15)) (terminateOp sysB.cs).1).inf.finished = false ∧
      (completeOp 0 5 (some (.exitError 15)) (terminateOp sysB.cs).1).inf.exit = 15)) :=
  ⟨(terminate_semantics newCmdIo 0 5).1 (Or.inl rfl),
   (terminate_semantics sysB.cs 0 5).2 (by decide) (by decide)⟩

/-- C4: code bug.  `Info()` while `_running` computes `RunT` as
`time.Now().Sub(c.str)` (src/cmdio.go:157), but the `str` field is assigned
by no function of the package: `init` (src/cmdio.go:225-232) records the
start timestamp only into `inf.StartT`.  For a run started at time 100
(`StartT = 100`), `Info` at time 150 therefore reports an elapsed run time
of 150 — time since the zero value of `str` — instead of the claimed
`now - start = 50`. -/
theorem info_runtime_ignores_start_time_bug :
    (initOp 100 42 { newCmdIo with iniDone := true }).inf.startT = 100 ∧
    (infoOp 150 (initOp 100 42 { newCmdIo with iniDone := true })).2.runT = 150 ∧
    (infoOp 150 (initOp 100 42 { newCmdIo with iniDone := true })).2.runT ≠
      150 - (initOp 100 42 { newCmdIo with iniDone := true }).inf.startT := by
  refine ⟨rfl, rfl, ?_⟩
  decide

lemma count_set_true (l : List Bool) (i : Nat) (h : l[i]? = some false) :
    (l.set i true).count true = l.count true + 1 := by
  induction l generalizing i with
  | nil => simp at h
  | cons a t ih =>
      cases i with
      | zero =>
          simp only [List.getElem?_cons_zero, Option.some.injEq] at h
          subst h
          simp [List.set, List.count_cons]
      | succ n =>
          simp only [List.getElem?_cons_succ] at h
          simp [List.set, List.count_cons, ih n h]
          omega

lemma startCtrl_inv (w : World) (i : Nat)
    (h : w.installs = w.ctrls.count true) :
    (startCtrl w i).installs = (startCtrl w i).ctrls.count true := by
  unfold startCtrl
  split
  next hx => simp [count_set_true w.ctrls i hx, h]
  next hx => exact h

lemma foldl_startCtrl_inv (ops : List Nat) (w : World)
    (h : w.installs = w.ctrls.count true) :
    (ops.foldl startCtrl w).installs
      = (ops.foldl startCtrl w).ctrls.count true := by
  induction ops generalizing w with
  | nil => exact h
  | cons i rest ih =>
      rw [List.foldl_cons]
      exact ih _ (startCtrl_inv w i h)

lemma foldl_startCtrl_length (ops : List Nat) (w : World) :
    (ops.foldl startCtrl w).ctrls.length = w.ctrls.length := by
  induction ops generalizing w with
  | nil => rfl
  | cons i rest ih =>
      rw [List.foldl_cons, ih]
      unfold startCtrl
      split
      · simp
      · rfl

/-- C5, counterexample: the once-gate guarding `go signalHandler()` is the
per-controller `sync.Once` made by `New`, so in a process with two
controllers that are each started once, the interrupt handler is installed
twice — not at most once per controlling process. -/
theorem handler_installed_per_process_counterexample :
    (startCtrl (startCtrl (freshWorld 2) 0) 1).installs = 2 ∧
    ¬((startCtrl (startCtrl (freshWorld 2) 0) 1).installs ≤ 1) := by decide

/-- C5 (amended): the handler is installed at most once per *Controller*:
after any sequence of `Start` calls in a process with `n` controllers, the
number of installations equals the number of controllers whose once-gate
has fired — bounded by `n`, not by one. -/
theorem handler_installed_once_per_controller (n : Nat) (ops : List Nat) :
    (ops.foldl startCtrl (freshWorld n)).installs
      = (ops.foldl startCtrl (freshWorld n)).ctrls.count true ∧
    (ops.foldl startCtrl (freshWorld n)).installs ≤ n := by
  have h0 : (freshWorld n).installs = (freshWorld n).ctrls.count true := by
    show 0 = (List.replicate n false).count true
    induction n with
    | zero => rfl
    | succ m ih => simpa [List.replicate_succ, List.count_cons] using ih
  have h := foldl_startCtrl_inv ops (freshWorld n) h0
  refine ⟨h, ?_⟩
  rw [h]
  calc (ops.foldl startCtrl (freshWorld n)).ctrls.count true
      ≤ (ops.foldl startCtrl (freshWorld n)).ctrls.length :=
        List.count_le_length _ _
    _ = n := by rw [foldl_startCtrl_length]; simp [freshWorld]

set_option maxRecDepth 100000 in
/-- C6: code bug.  The loop bound of `children` (src/darwin.go:91,
`for i := kinfoStructSize; i < buf.Len(); i += kinfoStructSize`) requires
the chunk's end offset `i` to stay strictly below the buffer length, so the
final 648-byte record of the table — the chunk ending exactly at
`buf.Len()` — is never decoded.  On a table holding exactly one record
`(pid 1, ppid 0)` the code returns no children of 0 at all, and on a
two-record table `[(1,0), (2,0)]` it returns only `[1]`, while the claim
requires exactly the pids of *all* records with the given parent.  The
error-propagation half of the claim does hold. -/
theorem children_drops_last_record_bug :
    children 0 (.ok (encodeTable [(1, 0)])) = .ok [] ∧
    children 0 (.ok (encodeTable [(1, 0), (2, 0)])) = .ok [1] ∧
    children 7 (.error 22) = .error 22 :=
  ⟨rfl, rfl, rfl⟩

/-- C7: exit-code decoding (src/cmdio.go:234-240 and 256-265): a wait error
whose status word says the process died from a signal yields that signal's
number; one that says it exited yields the exit status; no error yields 0;
any non-`ExitError` failure yields 0 while the error itself is kept
(non-nil) in the record by `endState`. -/
theorem exit_code_decoding (ws : WaitStatus) (e : GoError) (t now : Int) (c : CmdSt) :
    (wsSignaled ws = true →
      completeCode (some (.exitError ws)) = ((ws % 128 : Nat) : Int)) ∧
    (ws % 128 = 0 → ws / 256 ≠ 0 →
      completeCode (some (.exitError ws)) = ((ws / 256 : Nat) : Int)) ∧
    completeCode none = 0 ∧
    ((∀ w, e ≠ .exitError w) →
      completeCode (some e) = 0 ∧
      (completeOp t now (some e) c).inf.error = some e) := by
  refine ⟨?_, ?_, rfl, ?_⟩
  · intro h
    have h' : ws % 128 ≠ 127 ∧ ws % 128 ≠ 0 := by simpa [wsSignaled] using h
    have hpos : (0 : Int) < ((ws % 128 : Nat) : Int) := by
      have := Nat.pos_of_ne_zero h'.2
      omega
    have hsig : wsSignal ws = ((ws % 128 : Nat) : Int) := by
      unfold wsSignal
      rw [if_neg (by tauto)]
    simp only [completeCode, exitErr]
    rw [hsig, if_pos hpos]
  · intro h0 _
    have hsig : wsSignal ws = -1 := by
      unfold wsSignal
      rw [if_pos (Or.inr h0)]
    have hexit : wsExitStatus ws = ((ws / 256 : Nat) : Int) := by
      unfold wsExitStatus
      rw [if_neg (not_not.mpr h0)]
    simp only [completeCode, exitErr]
    rw [hsig, hexit, if_neg (by decide)]
  · intro hne
    constructor
    · cases e with
      | exitError w => exact absurd rfl (hne w)
      | reuseError => rfl
      | startError m => rfl
    · unfold completeOp endStateOp
      split
      · rfl
      · rfl

/-- Witness for C7: a process killed by SIGKILL (status word 9), a process
that exited with status 1 (status word 256), no error, and the reuse
error. -/
theorem exit_code_decoding_witness :
    completeCode (some (.exitError 9)) = ((9 % 128 : Nat) : Int) ∧
    completeCode (some (.exitError 256)) = ((256 / 256 : Nat) : Int) ∧
    completeCode none = 0 ∧
    (completeCode (some .reuseError) = 0 ∧
     (completeOp 0 5 (some .reuseError) newCmdIo).inf.error = some .reuseError) :=
  ⟨(exit_code_decoding 9 .reuseError 0 5 newCmdIo).1 (by decide),
   (exit_code_decoding 256 .reuseError 0 5 newCmdIo).2.1 (by decide) (by decide),
   (exit_code_decoding 9 .reuseError 0 5 newCmdIo).2.2.1,
   (exit_code_decoding 9 .reuseError 0 5 newCmdIo).2.2.2
     (fun w h => GoError.noConfusion h)⟩

/-- C8: in `runFn`'s event order the launch-accepted send strictly precedes
the result send for a successful start (and the `false` send precedes it on
a failed one); the `Join` close comes strictly after the result send on
every path; and a rejected reuse `Start` performs only the result-channel
send — no launch-accepted send and no `Join` close. -/
theorem signal_ordering :
    (runFnEvents true).indexOf (Ev.schSend true) < (runFnEvents true).indexOf Ev.echSend ∧
    (runFnEvents false).indexOf (Ev.schSend false) < (runFnEvents false).indexOf Ev.echSend ∧
    (∀ ok, (runFnEvents ok).indexOf Ev.echSend < (runFnEvents ok).indexOf Ev.synClose) ∧
    startCallEvents true = [Ev.echSend] ∧
    (∀ b, Ev.schSend b ∉ startCallEvents true) ∧
    Ev.synClose ∉ startCallEvents true := by
  refine ⟨by decide, by decide, ?_, by decide, ?_, by decide⟩
  · intro ok
    cases ok <;> decide
  · intro b
    cases b <;> decide

/-- C9, counterexample: supplying an explicit *empty* environment list does
not replace the inherited environment — `len(c.env) > 0` fails and `newCmd`
keeps `os.Environ()`, so the launched command's environment is not "exactly
the supplied list". -/
theorem env_empty_list_counterexample :
    cmdEnv (some []) ["A=1"] = ["A=1"] ∧ cmdEnv (some []) ["A=1"] ≠ [] := by
  exact ⟨rfl, by decide⟩

/-- C9 (amended): a supplied *non-empty* environment list becomes the
command's environment exactly (full replacement, no merge); with no list
supplied — or a supplied empty list — the command inherits the controlling
process's full environment. -/
theorem env_replacement_semantics (l osEnv : List String) (h : l ≠ []) :
    cmdEnv (some l) osEnv = l ∧ cmdEnv none osEnv = osEnv ∧
    cmdEnv (some []) osEnv = osEnv := by
  refine ⟨?_, rfl, rfl⟩
  unfold cmdEnv
  rw [if_pos]
  · rfl
  · show 0 < sliceLen (some l)
    have := List.length_pos.mpr h
    simpa [sliceLen] using this

/-- Witness for C9's amended theorem at concrete lists. -/
theorem env_replacement_witness :
    cmdEnv (some ["X=1"]) ["A=1"] = ["X=1"] ∧
    cmdEnv none ["A=1"] = ["A=1"] ∧
    cmdEnv (some []) ["A=1"] = ["A=1"] :=
  env_replacement_semantics ["X=1"] ["A=1"] (by decide)

lemma digitsGo_none_of_not_all (l : List Char) (n : Nat)
    (h : l.all isDigit = false) : digitsGo l n = none := by
  induction l generalizing n with
  | nil => exact absurd h (by simp)
  | cons c cs ih =>
      rw [List.all_cons] at h
      unfold digitsGo
      cases hc : isDigit c with
      | false => rw [if_neg (by simp [hc])]
      | true =>
          rw [hc, Bool.true_and] at h
          rw [if_pos (by simp [hc])]
          exact ih _ h

lemma atoi_invalid_eq_zero (s : List Char) (h : validDecimal s = false) :
    atoi s = 0 := by
  cases s with
  | nil => rfl
  | cons c0 rest =>
      simp only [validDecimal] at h
      simp only [atoi]
      rcases Bool.and_eq_false_iff.mp h with hempty | hall
      · have hds : (if c0 = '-' ∨ c0 = '+' then rest else c0 :: rest) = [] :=
          not_not.mp (of_decide_eq_false hempty)
        rw [hds]
        by_cases hneg : c0 = '-'
        · simp [digitsGo, hneg]
        · simp [digitsGo, hneg]
      · rw [digitsGo_none_of_not_all _ 0 hall]

/-- C10: when the acting identity's `Uid` or `Gid` string is not a
syntactically valid decimal integer, `strconv.Atoi`'s dropped-error zero
value flows into the `syscall.Credential`, so the child is configured to
run with uid and/or gid 0. -/
theorem invalid_id_yields_zero_credential (usr : GoUser) :
    (validDecimal usr.uid = false → (newCmdCred usr).uid = 0) ∧
    (validDecimal usr.gid = false → (newCmdCred usr).gid = 0) ∧
    (newCmdCred usr).noSetGroups = true := by
  refine ⟨?_, ?_, rfl⟩
  · intro h
    show toUInt32c (atoi usr.uid) = 0
    rw [atoi_invalid_eq_zero _ h]
    rfl
  · intro h
    show toUInt32c (atoi usr.gid) = 0
    rw [atoi_invalid_eq_zero _ h]
    rfl

/-- Witness for C10: a user whose `Uid` is non-numeric and whose `Gid` has a
trailing non-digit. -/
theorem invalid_id_zero_witness :
    (newCmdCred { uid := ['a', 'b', 'c'], gid := ['1', '2', 'x'] }).uid = 0 ∧
    (newCmdCred { uid := ['a', 'b', 'c'], gid := ['1', '2', 'x'] }).gid = 0 :=
  ⟨(invalid_id_yields_zero_credential
      { uid := ['a', 'b', 'c'], gid := ['1', '2', 'x'] }).1 (by decide),
   (invalid_id_yields_zero_credential
      { uid := ['a', 'b', 'c'], gid := ['1', '2', 'x'] }).2.1 (by decide)⟩

end Cmdio
